import Mathlib

/-!
Verification of the gradio JavaScript client submission engine.

The definitions below are a shallow embedding of the submission engine in
`src/client/js/src/client.ts` and `src/client/js/src/utils/submit.ts`
(with `src/unnamed/part_003` a second copy of the latter).  Helpers that the
engine imports but that are not part of the source tree
(`handle_message`, `open_stream`, `close_stream`, `apply_diff_stream`,
the message constants) are modelled from the specification and marked as such
in their doc comments.
-/

namespace Gradio

/-- Opaque output payload carried by server frames (`output.data`). -/
abbrev Data := List Nat

/-- The `stage` field of a status event (`Status["stage"]`). -/
inductive Stage
  | pending
  | generating
  | complete
  | error
deriving DecidableEq, Repr

/-- The `output` object of a server frame:
`{data, error?, average_duration?}`. -/
structure Output where
  data : Data
  error : Option String := none
  average_duration : Option ℚ := none
deriving DecidableEq, Repr

/-- An event emitted to the caller's listeners.  `status` carries the
`stage`, `queue`, `message` and `eta` fields; `data` carries the payload;
`log` carries the log line and level. -/
inductive Ev
  | status (stage : Stage) (queue : Bool) (message : Option String) (eta : Option ℚ)
  | data (d : Data)
  | log (log level : String)
deriving DecidableEq, Repr

/-- The transport protocol tag from `config.protocol`. -/
inductive Protocol
  | ws
  | sse
  | sse_v1
  | sse_v2
  | sse_v2_1
  | sse_v3
deriving DecidableEq, Repr

/-- `["sse_v2", "sse_v2.1", "sse_v3"].includes(protocol)` — the protocols on
which the callback calls `apply_diff_stream` (submit.ts line 573). -/
def diff_protocol : Protocol → Bool
  | .sse_v2 => true
  | .sse_v2_1 => true
  | .sse_v3 => true
  | _ => false

/-- `["sse_v2", "sse_v2.1"].includes(protocol)` — the protocols on which an
exception inside the callback closes the multiplex stream
(submit.ts line 622). -/
def v2_family : Protocol → Bool
  | .sse_v2 => true
  | .sse_v2_1 => true
  | _ => false

/-- Modelled from the spec: `QUEUE_FULL_MSG` lives in `constants.ts`, which is
not under src/; its exact text is irrelevant, the constant is kept opaque. -/
def QUEUE_FULL_MSG : String := "QUEUE_FULL_MSG"

/-- Modelled from the spec: `BROKEN_CONNECTION_MSG` lives in `constants.ts`,
which is not under src/. -/
def BROKEN_CONNECTION_MSG : String := "BROKEN_CONNECTION_MSG"

/-- A server frame on the SSE multiplex stream, following the frame schema of
spec §6 with the fields each `msg` kind actually uses.  `process_completed`
carries an optional `output`: a frame without one makes the interpreter
throw (see `handle_message`). -/
inductive Frame
  | estimation
  | progress
  | process_starts
  | queue_full
  | process_generating (output : Option Output)
  | process_completed (output : Option Output)
  | log (log level : String)
  | heartbeat
  | unexpected_error (message : Option String)
deriving DecidableEq, Repr

/-- The `type` tag of the message interpreter's result. -/
inductive HMType
  | update
  | complete
  | log
  | generating
  | heartbeat
  | unexpected_error
deriving DecidableEq, Repr

/-- The status object produced by the message interpreter. -/
structure HMStatus where
  stage : Stage
  queue : Bool
  message : Option String := none
  eta : Option ℚ := none
deriving DecidableEq, Repr

/-- The `{type, status?, data?}` record returned by the message interpreter.
`logdata` holds the `{log, level}` pair that a `log` frame carries in its
`data` slot. -/
structure HMResult where
  type : HMType
  status : Option HMStatus := none
  data : Option Output := none
  logdata : Option (String × String) := none
deriving DecidableEq, Repr

/-- Modelled from the spec: `handle_message` (the Message Interpreter C3,
`helpers`, not under src/).  Spec §4.3: `estimation`/`progress`/
`process_starts` are `update` frames carrying a status with the new stage
(pending), `queue_full` an `update` with an error status, `process_generating`
a `generating` result with optional inline data, `process_completed` a
`complete` result (terminal status, queue=true) carrying the output, `log` a
log record, `heartbeat` is ignored, `unexpected_error` carries an error
status with the server message.  A `process_completed` frame without an
`output` makes the interpreter throw (it reads `output.average_duration`
per the frame schema), modelled as `Except.error`. -/
def handle_message : Frame → Except Unit HMResult
  | .estimation =>
      .ok { type := .update, status := some ⟨.pending, true, none, none⟩ }
  | .progress =>
      .ok { type := .update, status := some ⟨.pending, true, none, none⟩ }
  | .process_starts =>
      .ok { type := .update, status := some ⟨.pending, true, none, none⟩ }
  | .queue_full =>
      .ok { type := .update, status := some ⟨.error, true, some QUEUE_FULL_MSG, none⟩ }
  | .process_generating o =>
      .ok { type := .generating, status := some ⟨.generating, true, none, none⟩, data := o }
  | .process_completed (some o) =>
      .ok { type := .complete,
            status := some ⟨.complete, true, none, o.average_duration⟩,
            data := some o }
  | .process_completed none => .error ()
  | .log l lv => .ok { type := .log, logdata := some (l, lv) }
  | .heartbeat => .ok { type := .heartbeat }
  | .unexpected_error m =>
      .ok { type := .unexpected_error, status := some ⟨.error, true, m, none⟩ }

/-- Association-list lookup for the string-keyed records of the engine. -/
def alookup {α : Type} (k : String) : List (String × α) → Option α
  | [] => none
  | (k', v) :: rest => if k' = k then some v else alookup k rest

/-- Association-list key deletion (`delete rec[k]`). -/
def aerase {α : Type} (k : String) : List (String × α) → List (String × α)
  | [] => []
  | (k', v) :: rest => if k' = k then aerase k rest else (k', v) :: aerase k rest

/-- Append a frame to `pending_stream_messages[k]`, creating the entry when
absent. -/
def abufAppend (k : String) (f : Frame) :
    List (String × List Frame) → List (String × List Frame)
  | [] => [(k, [f])]
  | (k', v) :: rest =>
      if k' = k then (k', v ++ [f]) :: rest else (k', v) :: abufAppend k f rest

/-- Association-list update (`rec[k] = v`). -/
def aupdate {α : Type} (k : String) (v : α) :
    List (String × α) → List (String × α)
  | [] => [(k, v)]
  | (k', v') :: rest =>
      if k' = k then (k, v) :: rest else (k', v') :: aupdate k v rest

/-- `Set.add` / record-key insertion keeping members unique. -/
def sinsert (x : String) (s : List String) : List String :=
  if x ∈ s then s else s ++ [x]

/-- The per-session SSE-multiplex state of the engine together with the
per-submission `complete` sentinel (`false`, i.e. `none`, until a terminal
status is stashed or the submission is cancelled). -/
structure MuxState where
  complete : Option HMStatus := none
  eventCallbacks : List String := []
  unclosedEvents : List String := []
  pendingStreamMessages : List (String × List Frame) := []
  pendingDiffStreams : List (String × Data) := []
  streamOpen : Bool := false
deriving DecidableEq, Repr

/-- The state at submission start. -/
def initState : MuxState := {}

/-- Modelled from the spec: `apply_diff_stream` (`utils/stream.ts`, not under
src/, spec §4.4) keeps a running snapshot per event id.  Diff payloads are
not modelled — frames carry full values, so the stored snapshot is the latest
full value; no claim depends on the folded contents. -/
def apply_diff_stream (st : MuxState) (e : String) (d : Option Output) : MuxState :=
  match d with
  | some o => { st with pendingDiffStreams := aupdate e o.data st.pendingDiffStreams }
  | none => st

/-- Modelled from the spec: `close_stream` (`utils/stream.ts`, not under src/,
spec §4.5) closes the multiplex transport and clears the open flag. -/
def close_stream (st : MuxState) : MuxState :=
  { st with streamOpen := false }

/-- Modelled from the spec: `open_stream` (`utils/stream.ts`, not under src/,
spec §4.5) idempotently establishes the multiplex stream. -/
def open_stream (st : MuxState) : MuxState :=
  { st with streamOpen := true }

/-- `stage: status?.stage!` — the non-null assertion the source uses when
re-emitting the stashed terminal status.  For payload-bearing frames the
interpreter always supplies a status, so the `none` case is unreachable; it
is mapped to `error` only to keep the function total. -/
def stage_bang : Option HMStatus → Stage
  | some s => s.stage
  | none => .error

/-- The body of the sse-mux frame callback, translated from
`src/client/js/src/utils/submit.ts` lines 518–626 (the `try` block), for the
submission with event id `e`.  Returns the events fired and the updated
state, or `Except.error` when handling the frame throws. -/
def callback_inner (p : Protocol) (e : String) (st : MuxState) (f : Frame) :
    Except Unit (List Ev × MuxState) :=
  match handle_message f with
  | .error u => .error u
  | .ok r =>
    if r.type = HMType.heartbeat then .ok ([], st)
    else if r.type = HMType.log then
      .ok ((match r.logdata with
            | some ld => [Ev.log ld.1 ld.2]
            | none => []), st)
    else
      -- the mutually exclusive if-chain on `type`
      let branch : List Ev × MuxState :=
        if r.type = HMType.update then
          match r.status with
          | some s =>
              if st.complete = none then
                ([Ev.status s.stage s.queue s.message s.eta], st)
              else ([], st)
          | none => ([], st)
        else if r.type = HMType.complete then
          ([], { st with complete := r.status })
        else if r.type = HMType.unexpected_error then
          ([Ev.status .error true
              (some ((r.status.bind HMStatus.message).getD "An Unexpected Error Occurred!"))
              none], st)
        else if r.type = HMType.generating then
          match r.status with
          | some s =>
              ([Ev.status s.stage true s.message s.eta],
               if r.data.isSome && diff_protocol p then apply_diff_stream st e r.data
               else st)
          | none => ([], st)
        else ([], st)
      let st1 := branch.2
      -- `if (data) { fire data; if (complete) fire the stashed terminal }`
      let dataPart : List Ev :=
        match r.data with
        | some o =>
            Ev.data o.data ::
              (match st1.complete with
               | some c => [Ev.status (stage_bang r.status) true c.message c.eta]
               | none => [])
        | none => []
      -- terminal cleanup on `status?.stage === "complete" || "error"`
      let st2 :=
        match r.status with
        | some s =>
            if s.stage = Stage.complete ∨ s.stage = Stage.error then
              { st1 with eventCallbacks := st1.eventCallbacks.erase e,
                         pendingDiffStreams := aerase e st1.pendingDiffStreams }
            else st1
        | none => st1
      .ok (branch.1 ++ dataPart, st2)

/-- The full frame callback including the `catch` handler
(submit.ts lines 611–625): an exception fires
`status{error, "An Unexpected Error Occurred!"}` and, for `sse_v2` /
`sse_v2.1`, closes the multiplex stream. -/
def callbackStep (p : Protocol) (e : String) (st : MuxState) (f : Frame) :
    List Ev × MuxState :=
  match callback_inner p e st f with
  | .ok r => r
  | .error _ =>
      ([Ev.status .error true (some "An Unexpected Error Occurred!") none],
       if v2_family p then close_stream st else st)

/-- Run the callback over a list of frames in order, accumulating events
(the `pending_stream_messages[event_id].forEach((msg) => callback(msg))`
drain, and any direct sequence of callback invocations). -/
def runFrames (p : Protocol) (e : String) : MuxState → List Frame → List Ev × MuxState
  | st, [] => ([], st)
  | st, f :: fs =>
      let r := callbackStep p e st f
      let rest := runFrames p e r.2 fs
      (r.1 ++ rest.1, rest.2)

/-- Modelled from the spec: the frame dispatch of the SSE multiplexer
(`open_stream`'s message handler in `utils/stream.ts`, not under src/,
spec §4.5): a frame for event id `e` is delivered to the registered callback
when one exists and is otherwise appended to `pendingStreamMessages[e]`. -/
def muxDeliver (p : Protocol) (e : String) (st : MuxState) (f : Frame) :
    List Ev × MuxState :=
  if e ∈ st.eventCallbacks then callbackStep p e st f
  else ([], { st with pendingStreamMessages := abufAppend e f st.pendingStreamMessages })

/-- Deliver a list of frames for event id `e` through the multiplexer. -/
def deliverAll (p : Protocol) (e : String) : MuxState → List Frame → List Ev × MuxState
  | st, [] => ([], st)
  | st, f :: fs =>
      let r := muxDeliver p e st f
      let rest := deliverAll p e r.2 fs
      (r.1 ++ rest.1, rest.2)

/-- The handling of a 200 `/queue/join` reply assigning event id `e`,
translated from `src/client/js/src/utils/submit.ts` lines 628–649: drain and
delete `pending_stream_messages[event_id]`, register the callback when the id
is truthy, add the id to `unclosed_events`, open the stream when closed. -/
def registerStep (p : Protocol) (e : String) (st : MuxState) : List Ev × MuxState :=
  let drained :=
    match alookup e st.pendingStreamMessages with
    | some msgs =>
        let r := runFrames p e st msgs
        (r.1, { r.2 with pendingStreamMessages := aerase e r.2.pendingStreamMessages })
    | none => ([], st)
  let st2 :=
    if e ≠ "" then
      { drained.2 with eventCallbacks := sinsert e drained.2.eventCallbacks }
    else drained.2
  let st3 := { st2 with unclosedEvents := sinsert e st2.unclosedEvents }
  let st4 := if st3.streamOpen = false then open_stream st3 else st3
  (drained.1, st4)

/-- A whole sse-mux submission run: the initial `status{pending, queue:true}`
(submit.ts lines 479–486), frames arriving before the `/queue/join` reply
(buffered by the multiplexer), the reply assigning `e`, then frames arriving
after registration. -/
def runMux (p : Protocol) (e : String) (pre post : List Frame) :
    List Ev × MuxState :=
  let r1 := deliverAll p e initState pre
  let r2 := registerStep p e r1.2
  let r3 := deliverAll p e r2.2 post
  (Ev.status .pending true none none :: (r1.1 ++ r2.1 ++ r3.1), r3.2)

/-- A status event whose stage is `complete` or `error` (a terminal status). -/
def isTerminal : Ev → Bool
  | .status .complete _ _ _ => true
  | .status .error _ _ _ => true
  | _ => false

/-- A `data` event. -/
def isDataEv : Ev → Bool
  | .data _ => true
  | _ => false

/-- Number of terminal status events in a trace. -/
def terminalCount (evs : List Ev) : Nat := (evs.filter isTerminal).length

/-- `true` iff no event of any type follows the first terminal status. -/
def nothingAfterTerminal : List Ev → Bool
  | [] => true
  | ev :: rest => if isTerminal ev then rest.isEmpty else nothingAfterTerminal rest

/-- `true` iff no `data` event occurs after the first terminal status (so the
last `data`, if any, precedes it). -/
def lastDataBeforeTerminal : List Ev → Bool
  | [] => true
  | ev :: rest =>
      if isTerminal ev then rest.all (fun x => !isDataEv x)
      else lastDataBeforeTerminal rest

/-- A frame that is well formed: handling it does not throw.  The only
malformed shape in the model is a `process_completed` frame without its
`output`. -/
def wellFormed : Frame → Bool
  | .process_completed none => false
  | _ => true

/-- A frame whose handling produces (or stashes) a terminal status:
`queue_full` (`update` with stage error), `unexpected_error`, and
`process_completed`. -/
def isTerminalFrame : Frame → Bool
  | .queue_full => true
  | .unexpected_error _ => true
  | .process_completed _ => true
  | _ => false

@[simp] theorem apply_diff_stream_complete (st : MuxState) (e : String) (d : Option Output) :
    (apply_diff_stream st e d).complete = st.complete := by cases d <;> rfl

@[simp] theorem apply_diff_stream_eventCallbacks (st : MuxState) (e : String) (d : Option Output) :
    (apply_diff_stream st e d).eventCallbacks = st.eventCallbacks := by cases d <;> rfl

@[simp] theorem apply_diff_stream_unclosedEvents (st : MuxState) (e : String) (d : Option Output) :
    (apply_diff_stream st e d).unclosedEvents = st.unclosedEvents := by cases d <;> rfl

@[simp] theorem apply_diff_stream_streamOpen (st : MuxState) (e : String) (d : Option Output) :
    (apply_diff_stream st e d).streamOpen = st.streamOpen := by cases d <;> rfl

@[simp] theorem apply_diff_stream_pendingStreamMessages (st : MuxState) (e : String) (d : Option Output) :
    (apply_diff_stream st e d).pendingStreamMessages = st.pendingStreamMessages := by
  cases d <;> rfl

/-- Handling a well-formed non-terminal frame emits only non-terminal events
and leaves the `complete` sentinel, the callback registry, the unclosed set,
the stream flag and the pending buffers unchanged. -/
theorem callbackStep_nonterminal (p : Protocol) (e : String) (st : MuxState) (f : Frame)
    (hw : wellFormed f = true) (ht : isTerminalFrame f = false) :
    (callbackStep p e st f).1.all (fun x => !isTerminal x) = true
    ∧ (callbackStep p e st f).2.complete = st.complete
    ∧ (callbackStep p e st f).2.eventCallbacks = st.eventCallbacks
    ∧ (callbackStep p e st f).2.unclosedEvents = st.unclosedEvents
    ∧ (callbackStep p e st f).2.streamOpen = st.streamOpen
    ∧ (callbackStep p e st f).2.pendingStreamMessages = st.pendingStreamMessages := by
  cases f with
  | estimation =>
      cases h : st.complete <;>
        simp [callbackStep, callback_inner, handle_message, isTerminal, h]
  | progress =>
      cases h : st.complete <;>
        simp [callbackStep, callback_inner, handle_message, isTerminal, h]
  | process_starts =>
      cases h : st.complete <;>
        simp [callbackStep, callback_inner, handle_message, isTerminal, h]
  | queue_full => simp [isTerminalFrame] at ht
  | process_generating o =>
      cases o with
      | none =>
          cases h : st.complete <;>
            simp [callbackStep, callback_inner, handle_message, isTerminal, stage_bang, h]
      | some out =>
          cases hp : diff_protocol p <;> cases h : st.complete <;>
            simp [callbackStep, callback_inner, handle_message, isTerminal, stage_bang, h, hp,
              apply_diff_stream]
  | process_completed o => simp [isTerminalFrame] at ht
  | log l lv => simp [callbackStep, callback_inner, handle_message, isTerminal]
  | heartbeat => simp [callbackStep, callback_inner, handle_message]
  | unexpected_error m => simp [isTerminalFrame] at ht

/-- Draining a list of well-formed non-terminal frames through the callback
emits only non-terminal events and preserves the registries. -/
theorem runFrames_nonterminal (p : Protocol) (e : String) (fs : List Frame)
    (h : ∀ f ∈ fs, wellFormed f = true ∧ isTerminalFrame f = false) :
    ∀ st : MuxState,
      (runFrames p e st fs).1.all (fun x => !isTerminal x) = true
      ∧ (runFrames p e st fs).2.complete = st.complete
      ∧ (runFrames p e st fs).2.eventCallbacks = st.eventCallbacks
      ∧ (runFrames p e st fs).2.unclosedEvents = st.unclosedEvents
      ∧ (runFrames p e st fs).2.streamOpen = st.streamOpen
      ∧ (runFrames p e st fs).2.pendingStreamMessages = st.pendingStreamMessages := by
  induction fs with
  | nil => intro st; simp [runFrames]
  | cons f fs ih =>
      intro st
      have hf := h f (by simp)
      obtain ⟨a1, a2, a3, a4, a5, a6⟩ := callbackStep_nonterminal p e st f hf.1 hf.2
      obtain ⟨b1, b2, b3, b4, b5, b6⟩ :=
        ih (fun g hg => h g (by simp [hg])) (callbackStep p e st f).2
      refine ⟨?_, ?_, ?_, ?_, ?_, ?_⟩
      · simp only [runFrames, List.all_append]
        simp [a1, b1]
      · simp only [runFrames]; rw [b2, a2]
      · simp only [runFrames]; rw [b3, a3]
      · simp only [runFrames]; rw [b4, a4]
      · simp only [runFrames]; rw [b5, a5]
      · simp only [runFrames]; rw [b6, a6]

theorem alookup_abufAppend (e : String) (f : Frame) (l : List (String × List Frame)) :
    alookup e (abufAppend e f l) = some ((alookup e l).getD [] ++ [f]) := by
  induction l with
  | nil => simp [abufAppend, alookup]
  | cons kv rest ih =>
      obtain ⟨k, v⟩ := kv
      by_cases hk : k = e <;> simp [abufAppend, alookup, hk, ih]

/-- While no callback is registered for `e`, the multiplexer emits nothing,
leaves all registries untouched and appends every frame to
`pendingStreamMessages[e]` in arrival order. -/
theorem deliverAll_unregistered (p : Protocol) (e : String) (fs : List Frame) :
    ∀ st : MuxState, e ∉ st.eventCallbacks →
      (deliverAll p e st fs).1 = []
      ∧ (deliverAll p e st fs).2.complete = st.complete
      ∧ (deliverAll p e st fs).2.eventCallbacks = st.eventCallbacks
      ∧ (deliverAll p e st fs).2.unclosedEvents = st.unclosedEvents
      ∧ (deliverAll p e st fs).2.streamOpen = st.streamOpen
      ∧ (alookup e (deliverAll p e st fs).2.pendingStreamMessages).getD []
          = (alookup e st.pendingStreamMessages).getD [] ++ fs := by
  induction fs with
  | nil => intro st _; simp [deliverAll]
  | cons f fs ih =>
      intro st he
      have hstep : muxDeliver p e st f
          = ([], { st with pendingStreamMessages := abufAppend e f st.pendingStreamMessages }) := by
        simp [muxDeliver, he]
      obtain ⟨b1, b2, b3, b4, b5, b6⟩ :=
        ih { st with pendingStreamMessages := abufAppend e f st.pendingStreamMessages } he
      refine ⟨?_, ?_, ?_, ?_, ?_, ?_⟩
      · simp only [deliverAll, hstep]; simpa using b1
      · simp only [deliverAll, hstep]; simpa using b2
      · simp only [deliverAll, hstep]; simpa using b3
      · simp only [deliverAll, hstep]; simpa using b4
      · simp only [deliverAll, hstep]; simpa using b5
      · simp only [deliverAll, hstep]
        simpa [alookup_abufAppend] using b6

theorem terminalCount_nonterminal_append (xs ys : List Ev)
    (h : xs.all (fun x => !isTerminal x) = true) :
    terminalCount (xs ++ ys) = terminalCount ys := by
  induction xs with
  | nil => simp
  | cons a t ih =>
      simp only [List.all_cons, Bool.and_eq_true, Bool.not_eq_true'] at h
      simp only [List.cons_append, terminalCount, List.filter, h.1]
      exact ih h.2

theorem nothingAfterTerminal_nonterminal_append (xs ys : List Ev)
    (h : xs.all (fun x => !isTerminal x) = true) :
    nothingAfterTerminal (xs ++ ys) = nothingAfterTerminal ys := by
  induction xs with
  | nil => simp
  | cons a t ih =>
      simp only [List.all_cons, Bool.and_eq_true, Bool.not_eq_true'] at h
      simp only [List.cons_append, nothingAfterTerminal, h.1, if_false]
      exact ih h.2

theorem lastDataBeforeTerminal_nonterminal_append (xs ys : List Ev)
    (h : xs.all (fun x => !isTerminal x) = true) :
    lastDataBeforeTerminal (xs ++ ys) = lastDataBeforeTerminal ys := by
  induction xs with
  | nil => simp
  | cons a t ih =>
      simp only [List.all_cons, Bool.and_eq_true, Bool.not_eq_true'] at h
      simp only [List.cons_append, lastDataBeforeTerminal, h.1, if_false]
      exact ih h.2

/-- A non-terminal frame is well formed (the only malformed shape,
`process_completed` without output, is terminal). -/
theorem nonterminal_wellFormed (f : Frame) (h : isTerminalFrame f = false) :
    wellFormed f = true := by
  cases f <;> simp_all [isTerminalFrame, wellFormed]

/-- A `queue_full` frame (an `update` carrying an error status) fires the
terminal error status and unregisters the callback. -/
theorem callbackStep_queue_full (p : Protocol) (e : String) (st : MuxState)
    (hc : st.complete = none) :
    callbackStep p e st .queue_full
      = ([Ev.status .error true (some QUEUE_FULL_MSG) none],
         { st with eventCallbacks := st.eventCallbacks.erase e,
                   pendingDiffStreams := aerase e st.pendingDiffStreams }) := by
  simp [callbackStep, callback_inner, handle_message, hc]

/-- An `unexpected_error` frame fires the terminal error status and
unregisters the callback. -/
theorem callbackStep_unexpected_error (p : Protocol) (e : String) (st : MuxState)
    (m : Option String) :
    callbackStep p e st (.unexpected_error m)
      = ([Ev.status .error true (some (m.getD "An Unexpected Error Occurred!")) none],
         { st with eventCallbacks := st.eventCallbacks.erase e,
                   pendingDiffStreams := aerase e st.pendingDiffStreams }) := by
  simp [callbackStep, callback_inner, handle_message]

/-- A well-formed `process_completed` frame stashes the terminal status, fires
the `data` event and then the stashed terminal status, and unregisters the
callback. -/
theorem callbackStep_completed (p : Protocol) (e : String) (st : MuxState) (out : Output) :
    callbackStep p e st (.process_completed (some out))
      = ([Ev.data out.data, Ev.status .complete true none out.average_duration],
         { st with complete := some ⟨.complete, true, none, out.average_duration⟩,
                   eventCallbacks := st.eventCallbacks.erase e,
                   pendingDiffStreams := aerase e st.pendingDiffStreams }) := by
  simp [callbackStep, callback_inner, handle_message, stage_bang]

/-- Delivering well-formed frames containing a terminal frame, starting from a
state where the submission's callback is registered and no terminal status
has been stashed, yields a trace with exactly one terminal status, nothing
after it, and every `data` event before it. -/
theorem deliverAll_terminating (p : Protocol) (e : String) (post : List Frame) :
    ∀ st : MuxState,
      (∀ f ∈ post, wellFormed f = true) →
      (∃ f ∈ post, isTerminalFrame f = true) →
      st.complete = none → st.eventCallbacks = [e] →
      terminalCount (deliverAll p e st post).1 = 1
      ∧ nothingAfterTerminal (deliverAll p e st post).1 = true
      ∧ lastDataBeforeTerminal (deliverAll p e st post).1 = true := by
  induction post with
  | nil => intro st _ hex; simp at hex
  | cons f fs ih =>
      intro st hwf hex hc hcb
      have hmem : e ∈ st.eventCallbacks := by rw [hcb]; simp
      have hmd : muxDeliver p e st f = callbackStep p e st f := by
        simp [muxDeliver, hmem]
      by_cases hterm : isTerminalFrame f = true
      · -- the head frame produces the terminal status; afterwards the callback
        -- is unregistered, so the remaining frames are buffered silently
        have hstep : terminalCount (callbackStep p e st f).1 = 1
            ∧ nothingAfterTerminal (callbackStep p e st f).1 = true
            ∧ lastDataBeforeTerminal (callbackStep p e st f).1 = true
            ∧ (callbackStep p e st f).2.eventCallbacks = [] := by
          cases f with
          | queue_full =>
              rw [callbackStep_queue_full p e st hc]
              refine ⟨?_, ?_, ?_, ?_⟩ <;>
                simp [terminalCount, nothingAfterTerminal, lastDataBeforeTerminal,
                  isTerminal, hcb]
          | unexpected_error m =>
              rw [callbackStep_unexpected_error p e st m]
              refine ⟨?_, ?_, ?_, ?_⟩ <;>
                simp [terminalCount, nothingAfterTerminal, lastDataBeforeTerminal,
                  isTerminal, hcb]
          | process_completed o =>
              cases o with
              | none =>
                  have := hwf (Frame.process_completed none) (by simp)
                  simp [wellFormed] at this
              | some out =>
                  rw [callbackStep_completed p e st out]
                  refine ⟨?_, ?_, ?_, ?_⟩ <;>
                    simp [terminalCount, nothingAfterTerminal, lastDataBeforeTerminal,
                      isTerminal, isDataEv, hcb]
          | estimation => simp [isTerminalFrame] at hterm
          | progress => simp [isTerminalFrame] at hterm
          | process_starts => simp [isTerminalFrame] at hterm
          | process_generating o => simp [isTerminalFrame] at hterm
          | log l lv => simp [isTerminalFrame] at hterm
          | heartbeat => simp [isTerminalFrame] at hterm
        obtain ⟨h1, h2, h3, h4⟩ := hstep
        have hnot : e ∉ (callbackStep p e st f).2.eventCallbacks := by
          rw [h4]; simp
        obtain ⟨t1, _, _, _, _, _⟩ :=
          deliverAll_unregistered p e fs (callbackStep p e st f).2 hnot
        simp only [deliverAll, hmd, t1, List.append_nil]
        exact ⟨h1, h2, h3⟩
      · -- non-terminal head: the step emits only non-terminal events and
        -- preserves the registration, so the tail decides the trace
        have hterm' : isTerminalFrame f = false := by
          cases h : isTerminalFrame f
          · rfl
          · exact absurd h hterm
        obtain ⟨a1, a2, a3, a4, a5, a6⟩ :=
          callbackStep_nonterminal p e st f (nonterminal_wellFormed f hterm') hterm'
        have hex' : ∃ g ∈ fs, isTerminalFrame g = true := by
          obtain ⟨g, hg, hgt⟩ := hex
          rcases List.mem_cons.mp hg with hgeq | hgm
          · exact absurd (hgeq ▸ hgt) hterm
          · exact ⟨g, hgm, hgt⟩
        obtain ⟨b1, b2, b3⟩ := ih (callbackStep p e st f).2
          (fun g hg => hwf g (by simp [hg])) hex'
          (by rw [a2, hc]) (by rw [a3, hcb])
        simp only [deliverAll, hmd]
        refine ⟨?_, ?_, ?_⟩
        · rw [terminalCount_nonterminal_append _ _ a1]; exact b1
        · rw [nothingAfterTerminal_nonterminal_append _ _ a1]; exact b2
        · rw [lastDataBeforeTerminal_nonterminal_append _ _ a1]; exact b3

theorem sinsert_nil (e : String) : sinsert e [] = [e] := by simp [sinsert]

/-- For a nonempty event id, the `/queue/join` reply handler first drains the
buffered frames through the callback and then registers the callback; its
`complete` and `eventCallbacks` fields derive from the drain result. -/
theorem registerStep_fields (p : Protocol) (e : String) (st : MuxState) (he : e ≠ "") :
    (registerStep p e st).1
      = (runFrames p e st ((alookup e st.pendingStreamMessages).getD [])).1
    ∧ (registerStep p e st).2.complete
      = (runFrames p e st ((alookup e st.pendingStreamMessages).getD [])).2.complete
    ∧ (registerStep p e st).2.eventCallbacks
      = sinsert e (runFrames p e st ((alookup e st.pendingStreamMessages).getD [])).2.eventCallbacks := by
  have hoc : ∀ (c : Prop) [Decidable c] (s : MuxState),
      (if c then open_stream s else s).complete = s.complete := by
    intro c _ s; split <;> rfl
  have hoe : ∀ (c : Prop) [Decidable c] (s : MuxState),
      (if c then open_stream s else s).eventCallbacks = s.eventCallbacks := by
    intro c _ s; split <;> rfl
  cases hl : alookup e st.pendingStreamMessages with
  | none =>
      refine ⟨?_, ?_, ?_⟩ <;> simp [registerStep, hl, runFrames, he, hoc, hoe]
  | some msgs =>
      refine ⟨?_, ?_, ?_⟩ <;> simp [registerStep, hl, he, hoc, hoe]

/-- C1 (counterexample): the claim as stated fails.  When a terminal
`process_completed` frame is buffered before the `/queue/join` reply, the
drain fires the terminal status, after which the reply handler re-registers
the callback (submit.ts lines 628–639); a later `process_generating` frame
is then still delivered and fires further status and data events after the
terminal status. -/
theorem C1_counterexample :
    ¬ (terminalCount (runMux .sse_v1 "E1"
          [Frame.process_completed (some ⟨[1], none, none⟩)]
          [Frame.process_generating (some ⟨[2], none, none⟩)]).1 = 1
       ∧ nothingAfterTerminal (runMux .sse_v1 "E1"
          [Frame.process_completed (some ⟨[1], none, none⟩)]
          [Frame.process_generating (some ⟨[2], none, none⟩)]).1 = true
       ∧ lastDataBeforeTerminal (runMux .sse_v1 "E1"
          [Frame.process_completed (some ⟨[1], none, none⟩)]
          [Frame.process_generating (some ⟨[2], none, none⟩)]).1 = true) := by
  decide

/-- C1 (amended): for every sse-mux submission with a nonempty assigned event
id, provided every frame delivered before the `/queue/join` reply is
non-terminal and the frames delivered after registration are well formed and
include a terminal frame, the engine emits exactly one terminal status event,
no event of any type after it, and every `data` event before it. -/
theorem C1_single_terminal_status (p : Protocol) (e : String) (pre post : List Frame)
    (he : e ≠ "")
    (hpre : ∀ f ∈ pre, isTerminalFrame f = false)
    (hpostw : ∀ f ∈ post, wellFormed f = true)
    (hpost : ∃ f ∈ post, isTerminalFrame f = true) :
    terminalCount (runMux p e pre post).1 = 1
    ∧ nothingAfterTerminal (runMux p e pre post).1 = true
    ∧ lastDataBeforeTerminal (runMux p e pre post).1 = true := by
  have h0 : e ∉ initState.eventCallbacks := by simp [initState]
  obtain ⟨p1, p2, p3, p4, p5, p6⟩ := deliverAll_unregistered p e pre initState h0
  have hbuf : (alookup e (deliverAll p e initState pre).2.pendingStreamMessages).getD []
      = pre := by
    simpa [initState, alookup] using p6
  have hpre' : ∀ f ∈ pre, wellFormed f = true ∧ isTerminalFrame f = false :=
    fun f hf => ⟨nonterminal_wellFormed f (hpre f hf), hpre f hf⟩
  obtain ⟨r1, r2, r3⟩ := registerStep_fields p e (deliverAll p e initState pre).2 he
  rw [hbuf] at r1 r2 r3
  obtain ⟨d1, d2, d3, d4, d5, d6⟩ :=
    runFrames_nonterminal p e pre hpre' (deliverAll p e initState pre).2
  have hc2 : (registerStep p e (deliverAll p e initState pre).2).2.complete = none := by
    rw [r2, d2, p2]; rfl
  have hcb2 : (registerStep p e (deliverAll p e initState pre).2).2.eventCallbacks = [e] := by
    rw [r3, d3, p3]
    show sinsert e initState.eventCallbacks = [e]
    exact sinsert_nil e
  obtain ⟨m1, m2, m3⟩ :=
    deliverAll_terminating p e post (registerStep p e (deliverAll p e initState pre).2).2
      hpostw hpost hc2 hcb2
  have hxs : (Ev.status .pending true none none
        :: (runFrames p e (deliverAll p e initState pre).2 pre).1).all
        (fun x => !isTerminal x) = true := by
    simp only [List.all_cons, Bool.and_eq_true]
    exact ⟨by simp [isTerminal], d1⟩
  have hsplit : (runMux p e pre post).1
      = (Ev.status .pending true none none
          :: (runFrames p e (deliverAll p e initState pre).2 pre).1)
        ++ (deliverAll p e (registerStep p e (deliverAll p e initState pre).2).2 post).1 := by
    simp [runMux, p1, r1]
  refine ⟨?_, ?_, ?_⟩
  · rw [hsplit, terminalCount_nonterminal_append _ _ hxs]; exact m1
  · rw [hsplit, nothingAfterTerminal_nonterminal_append _ _ hxs]; exact m2
  · rw [hsplit, lastDataBeforeTerminal_nonterminal_append _ _ hxs]; exact m3

/-- C1 (witness): the amended statement at a concrete run — one
`process_starts` frame arrives before the reply, then a `process_generating`
and a `process_completed` frame after registration. -/
theorem C1_single_terminal_status_witness :
    terminalCount (runMux .sse_v2 "E1" [Frame.process_starts]
        [Frame.process_generating (some ⟨[7], none, none⟩),
         Frame.process_completed (some ⟨[9], none, none⟩)]).1 = 1
    ∧ nothingAfterTerminal (runMux .sse_v2 "E1" [Frame.process_starts]
        [Frame.process_generating (some ⟨[7], none, none⟩),
         Frame.process_completed (some ⟨[9], none, none⟩)]).1 = true
    ∧ lastDataBeforeTerminal (runMux .sse_v2 "E1" [Frame.process_starts]
        [Frame.process_generating (some ⟨[7], none, none⟩),
         Frame.process_completed (some ⟨[9], none, none⟩)]).1 = true :=
  C1_single_terminal_status .sse_v2 "E1" _ _ (by decide) (by decide) (by decide)
    ⟨Frame.process_completed (some ⟨[9], none, none⟩), by simp, rfl⟩

/-- C8 (code bug, failing input): when the `/queue/join` reply assigns the
empty (falsy) event id, `unclosed_events.add(event_id)` runs unconditionally
(submit.ts line 639) while the callback registration is guarded by
`if (event_id)` (line 635), so before any terminal frame the id sits in
`unclosedEvents` but not in `eventCallbacks`, breaking the claimed
equivalence. -/
theorem C8_empty_event_id_bug :
    "" ∈ (runMux .sse_v1 "" [] []).2.unclosedEvents
    ∧ "" ∉ (runMux .sse_v1 "" [] []).2.eventCallbacks := by
  decide

theorem callbackStep_psm (p : Protocol) (e : String) (st : MuxState) (f : Frame) :
    (callbackStep p e st f).2.pendingStreamMessages = st.pendingStreamMessages := by
  cases f with
  | estimation =>
      cases h : st.complete <;> simp [callbackStep, callback_inner, handle_message, h]
  | progress =>
      cases h : st.complete <;> simp [callbackStep, callback_inner, handle_message, h]
  | process_starts =>
      cases h : st.complete <;> simp [callbackStep, callback_inner, handle_message, h]
  | queue_full =>
      cases h : st.complete <;> simp [callbackStep, callback_inner, handle_message, h]
  | process_generating o =>
      cases o with
      | none =>
          cases h : st.complete <;> simp [callbackStep, callback_inner, handle_message, h]
      | some out =>
          cases hp : diff_protocol p <;> cases h : st.complete <;>
            simp [callbackStep, callback_inner, handle_message, h, hp, apply_diff_stream]
  | process_completed o =>
      cases o with
      | none =>
          cases hv : v2_family p <;>
            simp [callbackStep, callback_inner, handle_message, hv, close_stream]
      | some out => simp [callbackStep, callback_inner, handle_message]
  | log l lv => simp [callbackStep, callback_inner, handle_message]
  | heartbeat => simp [callbackStep, callback_inner, handle_message]
  | unexpected_error m => simp [callbackStep, callback_inner, handle_message]

theorem runFrames_psm (p : Protocol) (e : String) (fs : List Frame) :
    ∀ st : MuxState,
      (runFrames p e st fs).2.pendingStreamMessages = st.pendingStreamMessages := by
  induction fs with
  | nil => intro st; simp [runFrames]
  | cons f fs ih =>
      intro st
      simp only [runFrames]
      rw [ih, callbackStep_psm]

theorem alookup_aerase {α : Type} (e : String) (l : List (String × α)) :
    alookup e (aerase e l) = none := by
  induction l with
  | nil => simp [aerase, alookup]
  | cons kv rest ih =>
      obtain ⟨k, v⟩ := kv
      by_cases hk : k = e <;> simp [aerase, alookup, hk, ih]

/-- The reply handler's final `pendingStreamMessages`: the drained entry is
deleted; nothing else in the handler touches the buffer. -/
theorem registerStep_psm (p : Protocol) (e : String) (st : MuxState) :
    (registerStep p e st).2.pendingStreamMessages
      = match alookup e st.pendingStreamMessages with
        | some msgs => aerase e (runFrames p e st msgs).2.pendingStreamMessages
        | none => st.pendingStreamMessages := by
  have hpsm : ∀ (c : Prop) [Decidable c] (s : MuxState),
      (if c then open_stream s else s).pendingStreamMessages = s.pendingStreamMessages := by
    intro c _ s; split <;> rfl
  have hpe : ∀ (c : Prop) [Decidable c] (s : MuxState),
      (if c then { s with eventCallbacks := sinsert e s.eventCallbacks } else s).pendingStreamMessages
        = s.pendingStreamMessages := by
    intro c _ s; split <;> rfl
  cases hl : alookup e st.pendingStreamMessages with
  | none =>
      simp only [registerStep, hl]
      rw [hpsm]
      exact hpe _ _
  | some msgs =>
      simp only [registerStep, hl]
      rw [hpsm]
      exact hpe _ _

/-- The `/queue/join` reply handler emits exactly the events of draining the
buffered frames through the callback in order (empty drain when no frames
were buffered). -/
theorem registerStep_evs (p : Protocol) (e : String) (st : MuxState) :
    (registerStep p e st).1
      = (runFrames p e st ((alookup e st.pendingStreamMessages).getD [])).1 := by
  cases hl : alookup e st.pendingStreamMessages <;>
    simp [registerStep, hl, runFrames]

/-- C3: every frame for `e` delivered before the `/queue/join` reply is
buffered in `pendingStreamMessages[e]` in arrival order; at registration the
buffered frames are passed through the submission's callback exactly once, in
that order (the drain's event trace is exactly the callback fold over the
arrival list); afterwards `pendingStreamMessages[e]` is deleted. -/
theorem C3_pending_stream_drain (p : Protocol) (e : String) (pre : List Frame) :
    (alookup e (deliverAll p e initState pre).2.pendingStreamMessages).getD [] = pre
    ∧ (registerStep p e (deliverAll p e initState pre).2).1
        = (runFrames p e (deliverAll p e initState pre).2 pre).1
    ∧ alookup e (registerStep p e (deliverAll p e initState pre).2).2.pendingStreamMessages
        = none := by
  have h0 : e ∉ initState.eventCallbacks := by simp [initState]
  obtain ⟨p1, p2, p3, p4, p5, p6⟩ := deliverAll_unregistered p e pre initState h0
  have hbuf : (alookup e (deliverAll p e initState pre).2.pendingStreamMessages).getD []
      = pre := by
    simpa [initState, alookup] using p6
  refine ⟨hbuf, ?_, ?_⟩
  · rw [registerStep_evs, hbuf]
  · rw [registerStep_psm]
    cases hl : alookup e (deliverAll p e initState pre).2.pendingStreamMessages with
    | none => simpa using hl
    | some msgs => simp [alookup_aerase]

/-- C6: an exception while handling a frame fires
`status{error, "An Unexpected Error Occurred!"}`; for `sse_v2` and `sse_v2.1`
the multiplex stream is closed, while `sse_v3` leaves it open. -/
theorem C6_callback_exception (p : Protocol) (e : String) (st : MuxState) (f : Frame)
    (hf : handle_message f = Except.error ()) :
    (callbackStep p e st f).1
      = [Ev.status .error true (some "An Unexpected Error Occurred!") none]
    ∧ ((p = .sse_v2 ∨ p = .sse_v2_1) → (callbackStep p e st f).2.streamOpen = false)
    ∧ (p = .sse_v3 → (callbackStep p e st f).2.streamOpen = st.streamOpen) := by
  refine ⟨?_, ?_, ?_⟩
  · simp [callbackStep, callback_inner, hf]
  · intro hp
    rcases hp with hp | hp <;> subst hp <;>
      simp [callbackStep, callback_inner, hf, v2_family, close_stream]
  · intro hp
    subst hp
    simp [callbackStep, callback_inner, hf, v2_family]

/-- C6 (witness): a `process_completed` frame without `output` throws; on
`sse_v2` the default error status fires and the stream is closed. -/
theorem C6_callback_exception_witness :
    handle_message (Frame.process_completed none) = Except.error ()
    ∧ (callbackStep .sse_v2 "E1" initState (Frame.process_completed none)).1
        = [Ev.status .error true (some "An Unexpected Error Occurred!") none]
    ∧ (callbackStep .sse_v2 "E1" initState (Frame.process_completed none)).2.streamOpen
        = false :=
  ⟨rfl, (C6_callback_exception .sse_v2 "E1" initState (Frame.process_completed none) rfl).1,
    (C6_callback_exception .sse_v2 "E1" initState (Frame.process_completed none) rfl).2.1
      (Or.inl rfl)⟩

/-- The direct (skip_queue) transport handler, translated from
`src/client/js/src/utils/submit.ts` lines 177–239: the pending status with
`queue:false`, then the handling of the `post_data` result
`(output, status_code)` — HTTP 200 fires `data` then
`status{complete, eta: output.average_duration}`, a non-200 fires
`status{error, message: output.error}`, and a thrown exception fires
`status{error, message: e.message}`. -/
def directEvents (resp : Except String (Output × Nat)) : List Ev :=
  Ev.status .pending false none none ::
    match resp with
    | .ok (output, status_code) =>
        if status_code = 200 then
          [Ev.data output.data,
           Ev.status .complete false none output.average_duration]
        else
          [Ev.status .error false output.error none]
    | .error msg => [Ev.status .error false (some msg) none]

/-- C2: the direct transport fires `data` then
`status{complete, queue:false, eta=output.average_duration}` on HTTP 200,
`status{error, message=output.error}` on a non-200 status, and
`status{error, message=e.message}` when the POST throws. -/
theorem C2_direct_transport :
    (∀ o : Output, directEvents (.ok (o, 200))
        = [Ev.status .pending false none none, Ev.data o.data,
           Ev.status .complete false none o.average_duration])
    ∧ (∀ (o : Output) (c : Nat), c ≠ 200 → directEvents (.ok (o, c))
        = [Ev.status .pending false none none, Ev.status .error false o.error none])
    ∧ (∀ m : String, directEvents (.error m)
        = [Ev.status .pending false none none,
           Ev.status .error false (some m) none]) := by
  refine ⟨fun o => by simp [directEvents], fun o c hc => by simp [directEvents, hc],
    fun m => by simp [directEvents]⟩

/-- C2 (witness): a non-200 direct response at a concrete input. -/
theorem C2_direct_transport_witness :
    (503 : Nat) ≠ 200
    ∧ directEvents (.ok (⟨[5], some "boom", none⟩, 503))
        = [Ev.status .pending false none none,
           Ev.status .error false (some "boom") none] :=
  ⟨by decide, C2_direct_transport.2.1 ⟨[5], some "boom", none⟩ 503 (by decide)⟩

/-- The readiness of the submission's WebSocket handle. -/
inductive WsReady
  | connecting
  | openReady
  | closingReady
  | closedReady
deriving DecidableEq, Repr

/-- The context `cancel()` closes over: the protocol, the `websocket` and
outer `event_stream` locals (`none` / `false` when never assigned), the
`event_id`, `fn_index` and the submission's `session_hash`. -/
structure CancelCtx where
  protocol : Protocol
  websocket : Option WsReady
  event_stream_assigned : Bool
  event_id : Option String
  fn_index : Nat
  session_hash : Nat
deriving DecidableEq, Repr

/-- The body of the `/reset` POST: `{fn_index, session_hash}` for ws,
`{event_id}` otherwise. -/
inductive ResetBody
  | ws_body (fn_index : Nat) (session_hash : Nat)
  | event_body (event_id : Option String)
deriving DecidableEq, Repr

/-- Observable outcome of one `cancel()` call.  `resetWarned` records the
caught-and-warned failure of the `/reset` fetch; `rejected` that the promise
returned by `cancel()` rejected. -/
structure CancelOutcome where
  events : List Ev
  markedComplete : Bool
  transportClosed : Bool
  resetPosted : Option ResetBody
  resetWarned : Bool
  rejected : Bool
deriving DecidableEq, Repr

/-- The synthetic `status{stage:complete, queue:false}` that `cancel()`
fires. -/
def syntheticComplete : Ev := Ev.status .complete false none none

/-- `cancel()` translated from `src/client/js/src/utils/submit.ts` lines
118–158.  It sets `complete`, fires the synthetic status, then tears down the
transport and POSTs `/reset`.  The outer `event_stream` local is declared at
line 66 but never assigned — the `sse` branch at line 383 declares a new
shadowing `let`, and the sse-mux branch assigns nothing — so for every
non-ws submission `event_stream.close()` dereferences `undefined` and the
async function rejects with a TypeError before the `/reset` POST (likewise
`websocket.close()` when cancel runs before the socket exists).  A failing
`/reset` fetch (`resetFails`) is caught and only warned, so it never changes
the outcome. -/
def cancelRun (ctx : CancelCtx) (resetFails : Bool) : CancelOutcome :=
  let evs := [syntheticComplete]
  if ctx.protocol = .ws then
    match ctx.websocket with
    | none => ⟨evs, true, false, none, false, true⟩
    | some _ =>
        ⟨evs, true, true, some (.ws_body ctx.fn_index ctx.session_hash), resetFails, false⟩
  else
    if ctx.event_stream_assigned then
      ⟨evs, true, true, some (.event_body ctx.event_id), resetFails, false⟩
    else
      ⟨evs, true, false, none, false, true⟩

/-- C4 (code bug, failing input): cancelling an sse-mux submission fires the
synthetic complete status but then throws closing the never-assigned
`event_stream`, so no transport is closed, `/reset` is never POSTed and the
promise rejects — against the claim that the transport is closed, `/reset`
is POSTed and only reset failures are (silently) warned. -/
theorem C4_cancel_reset_bug :
    (cancelRun ⟨.sse_v1, none, false, some "E1", 0, 0⟩ false).events = [syntheticComplete]
    ∧ (cancelRun ⟨.sse_v1, none, false, some "E1", 0, 0⟩ false).rejected = true
    ∧ (cancelRun ⟨.sse_v1, none, false, some "E1", 0, 0⟩ false).resetPosted = none
    ∧ (cancelRun ⟨.sse_v1, none, false, some "E1", 0, 0⟩ false).transportClosed = false := by
  decide

/-- Per-submission observable state across repeated `cancel()` calls (ws
transport with the socket assigned, so no call throws). -/
structure SubState where
  complete : Bool
  events : List Ev
  resetPosts : Nat
deriving DecidableEq, Repr

/-- One `cancel()` call (`submit.ts` lines 118–158): there is no
already-cancelled guard, so every call marks `complete`, fires the synthetic
status to the listeners and POSTs `/reset` again. -/
def cancelCall (st : SubState) : SubState :=
  { complete := true,
    events := st.events ++ [syntheticComplete],
    resetPosts := st.resetPosts + 1 }

/-- C5 (counterexample): a second `cancel()` is observable — the listeners
receive a second synthetic status event. -/
theorem C5_counterexample :
    (cancelCall (cancelCall ⟨false, [], 0⟩)).events
      ≠ (cancelCall ⟨false, [], 0⟩).events := by
  decide

/-- C5 (amended): `cancel()` is idempotent on the completion state, but each
further call fires one more synthetic complete status and issues one more
`/reset` POST. -/
theorem C5_cancel_state_idempotent (st : SubState) :
    (cancelCall (cancelCall st)).complete = (cancelCall st).complete
    ∧ (cancelCall (cancelCall st)).events = (cancelCall st).events ++ [syntheticComplete]
    ∧ (cancelCall (cancelCall st)).resetPosts = (cancelCall st).resetPosts + 1 := by
  simp [cancelCall]

/-- A wire message that carries a `session_hash` field. -/
structure WireMsg where
  path : String
  session_hash : Nat
deriving DecidableEq, Repr

/-- The random token supply: `Math.random().toString(36).substring(2)` is
modelled as drawing the next counter value, so distinct draws yield distinct
opaque tokens. -/
def drawToken (supply : Nat) : Nat × Nat := (supply, supply + 1)

/-- The client session (client.ts): `session_hash` is drawn once at
construction (line 39) and never reassigned. -/
structure ClientModel where
  session_hash : Nat
deriving DecidableEq, Repr

def clientCreate (supply : Nat) : ClientModel × Nat :=
  ((⟨(drawToken supply).1⟩ : ClientModel), (drawToken supply).2)

/-- The heartbeat GET (`client.ts` lines 126–130) uses the client's hash. -/
def heartbeatMsg (c : ClientModel) : WireMsg := ⟨"/heartbeat", c.session_hash⟩

/-- `src/client/js/src/utils/submit.ts` line 40: each `submit()` call
generates a fresh `session_hash` of its own instead of reading the
client's. -/
def submitSessionHash (supply : Nat) : Nat × Nat := drawToken supply

/-- The hash-carrying wire messages of one submission (direct run POST line
193, sse-mux `/queue/join` POST line 492, legacy `/queue/data` POST line 411,
reset body line 141) — all built from the submission's local hash. -/
def submissionMsgs (h : Nat) : List WireMsg :=
  [⟨"/run", h⟩, ⟨"/queue/join", h⟩, ⟨"/queue/data", h⟩, ⟨"/reset", h⟩]

/-- C7 (counterexample): the first submission of a fresh client session uses
a hash different from the one the heartbeat carries, so not every wire
message of the session carries the same `session_hash`. -/
theorem C7_counterexample :
    ((submissionMsgs (submitSessionHash (clientCreate 0).2).1).all
        (fun m => m.session_hash = (heartbeatMsg (clientCreate 0).1).session_hash))
      = false := by
  decide

/-- C7 (amended): all wire messages of a single submission carry that
submission's own freshly drawn hash, and the heartbeat carries the client's
hash fixed at creation; but a submission's hash differs from the client's,
so the session-wide claim fails. -/
theorem C7_per_submission_hash (supply : Nat) :
    (∀ m ∈ submissionMsgs (submitSessionHash supply).1,
        m.session_hash = (submitSessionHash supply).1)
    ∧ (heartbeatMsg (clientCreate supply).1).session_hash
        = (clientCreate supply).1.session_hash
    ∧ (clientCreate supply).1.session_hash ≠ (submitSessionHash (clientCreate supply).2).1 := by
  refine ⟨?_, rfl, ?_⟩
  · intro m hm
    fin_cases hm <;> rfl
  · simp [clientCreate, submitSessionHash, drawToken]

/-- C7 (witness): the amended statement at a concrete supply. -/
theorem C7_per_submission_hash_witness :
    WireMsg.mk "/run" (submitSessionHash 5).1 ∈ submissionMsgs (submitSessionHash 5).1
    ∧ (WireMsg.mk "/run" (submitSessionHash 5).1).session_hash = (submitSessionHash 5).1 :=
  ⟨by decide, (C7_per_submission_hash 5).1 (WireMsg.mk "/run" (submitSessionHash 5).1) (by decide)⟩

/-- `off(eventType, listener)` from `src/client/js/src/utils/submit.ts` lines
107–116: the listener array is replaced by
`listeners.filter((l) => l !== listener)`.  Listener identity (JS reference
equality) is modelled by a numeric token. -/
def off_removed (listener : Nat) (listeners : List Nat) : List Nat :=
  listeners.filter (fun l => l != listener)

/-- The behaviour the claim describes: remove only the first listener
identical to the given one. -/
def off_remove_first (listener : Nat) : List Nat → List Nat
  | [] => []
  | l :: ls => if l = listener then ls else l :: off_remove_first listener ls

/-- C9 (counterexample): with the same listener registered twice
(`[f, g, f]`), `off(f)` removes both copies, not just the first. -/
theorem C9_counterexample :
    off_removed 0 [0, 1, 0] ≠ off_remove_first 0 [0, 1, 0] := by decide

/-- C9 (amended): `off` removes every registered listener identical (by
reference) to the given one — later duplicates included — while all other
listeners keep their multiplicities and relative order. -/
theorem C9_off_removes_all_copies (listener : Nat) (ls : List Nat) :
    listener ∉ off_removed listener ls
    ∧ (∀ g, g ≠ listener → (off_removed listener ls).count g = ls.count g)
    ∧ (off_removed listener ls).Sublist ls := by
  refine ⟨?_, ?_, ?_⟩
  · simp [off_removed]
  · intro g hg
    induction ls with
    | nil => rfl
    | cons a t ih =>
        by_cases ha : a = listener
        · subst ha
          simp [off_removed, List.count_cons, Ne.symm hg] at *
          exact ih
        · simp [off_removed, List.count_cons, ha] at *
          exact ih
  · exact List.filter_sublist _

/-- C9 (witness): the amended statement at a concrete duplicate list. -/
theorem C9_off_removes_all_copies_witness :
    0 ∉ off_removed 0 [0, 1, 0]
    ∧ (1 : Nat) ≠ 0
    ∧ (off_removed 0 [0, 1, 0]).count 1 = [0, 1, 0].count 1 :=
  ⟨(C9_off_removes_all_copies 0 [0, 1, 0]).1, by decide,
    (C9_off_removes_all_copies 0 [0, 1, 0]).2.1 1 (by decide)⟩

/-- The JavaScript globals the factory inspects. -/
structure JsEnv where
  hasWindow : Bool
  hasEventSource : Bool
deriving DecidableEq, Repr

/-- A JS value as far as the factory's guard is concerned. -/
inductive JsVal
  | str (s : String)
  | undef
deriving DecidableEq, Repr

/-- `typeof window` — always a string value. -/
def typeof_window (env : JsEnv) : JsVal :=
  .str (if env.hasWindow then "object" else "undefined")

/-- What `eventSource_factory` returns: a live `EventSource`, or the plain
no-op function for environments without the constructor. -/
inductive FactoryResult
  | eventSource (url : String)
  | noop
deriving DecidableEq, Repr

/-- Whether the factory result opens a network connection (and hence can
deliver frames). -/
def opensConnection : FactoryResult → Bool
  | .eventSource _ => true
  | .noop => false

/-- `Client.eventSource_factory` from `client.ts` lines 58–63.  The source
guard is `typeof window !== undefined && typeof EventSource !== "undefined"`;
the first comparison pits the typeof string against the undefined value and
so never holds equal, leaving the `EventSource` check decisive. -/
def eventSource_factory (env : JsEnv) (url : String) : FactoryResult :=
  if typeof_window env ≠ JsVal.undef ∧ env.hasEventSource then .eventSource url
  else .noop

/-- C10: the factory is total — it returns the `EventSource` exactly when the
global constructor exists, and otherwise the no-op function, which opens no
connection and delivers no frames. -/
theorem C10_factory_total (env : JsEnv) (url : String) :
    eventSource_factory env url
      = (if env.hasEventSource then .eventSource url else .noop)
    ∧ (env.hasEventSource = false →
        eventSource_factory env url = .noop
        ∧ opensConnection (eventSource_factory env url) = false) := by
  constructor
  · cases he : env.hasEventSource <;> simp [eventSource_factory, typeof_window, he]
  · intro he
    simp [eventSource_factory, typeof_window, he, opensConnection]

/-- C10 (witness): a node-like environment without `EventSource` gets the
no-op result for the heartbeat URL. -/
theorem C10_factory_total_witness :
    eventSource_factory ⟨false, false⟩ "http://app/heartbeat/abc" = .noop
    ∧ opensConnection (eventSource_factory ⟨false, false⟩ "http://app/heartbeat/abc") = false :=
  (C10_factory_total ⟨false, false⟩ "http://app/heartbeat/abc").2 rfl

end Gradio
